import Mathlib

/-!
Shallow embedding of the ToonVision dataset tooling.

Sources embedded:
- `src/core/bounding_box.py` : `BBFORMAT`, `BoundingBox`, `yolo_to_absolute`, `from_yolo`
- `src/core/labeled_image.py` : `LabeledImage.extract_bboxes`
- `src/dataset/fetch_data.py` : `fetch_yolo_boxes`
- `src/dataset/create_yolo_dataset.py` : `replace_class_label`, `create_dataset`

Python floating point arithmetic is modelled exactly over `ℚ` (binary floats
are a subset of the rationals; the spec's contracts are stated in exact real
arithmetic).  Python's `int(...)` applied to a float value truncates toward
zero, which is `ratTrunc` below.  Fallible Python code (exceptions) is
modelled with `Option`.  The process-global `random` generator (CPython's
Mersenne Twister) is modelled by explicit state passing.
-/

/-- Python `int(q)` on a numeric value: truncation toward zero. -/
def ratTrunc (q : ℚ) : Int := if 0 ≤ q then ⌊q⌋ else ⌈q⌉

/-- Characters treated as whitespace by Python `str.split()` with no argument
(ASCII subset; the label files contain only ASCII). -/
def pyIsSpace (c : Char) : Bool :=
  c = ' ' || c = '\t' || c = '\n' || c = '\r' || c = '\x0b' || c = '\x0c'

/-- Worker for `pySplit`: first list is the remaining input, second is the
current (reversed) in-progress token. -/
def pySplitAux : List Char → List Char → List String
  | [], [] => []
  | [], cur => [String.mk cur.reverse]
  | c :: cs, cur =>
    if pyIsSpace c then
      match cur with
      | [] => pySplitAux cs []
      | _ => String.mk cur.reverse :: pySplitAux cs []
    else pySplitAux cs (c :: cur)

/-- Python `s.split()` with no argument: split on runs of whitespace,
producing no empty tokens (so a blank line yields the empty list). -/
def pySplit (s : String) : List String := pySplitAux s.data []

/-- Numeric value of a list of decimal digit characters. -/
def digitsVal (ds : List Char) : Nat := ds.foldl (fun a c => 10 * a + (c.toNat - 48)) 0

/-- Result of CPython `float(s)` when it accepts `s`: a finite value, a
signed infinity, or a NaN (the latter two come from the textual forms
`inf`/`infinity`/`nan` and are not rational numbers). -/
inductive PyFloatVal where
  | finite (q : ℚ)
  | inf (neg : Bool)
  | nan
deriving DecidableEq

/-- Leading and trailing whitespace stripping performed by `float(s)`. -/
def stripPyWS (cs : List Char) : List Char :=
  ((cs.dropWhile pyIsSpace).reverse.dropWhile pyIsSpace).reverse

/-- PEP 515 underscore validation performed by `float(s)`: every underscore
must be immediately preceded and followed by a decimal digit.  The first
argument is the preceding character, if any. -/
def underscoresOKAux : Option Char → List Char → Bool
  | _, [] => true
  | prev, '_' :: rest =>
    (match prev with
     | some p => p.isDigit
     | none => false)
    && (match rest with
        | r :: _ => r.isDigit
        | [] => false)
    && underscoresOKAux (some '_') rest
  | _, c :: rest => underscoresOKAux (some c) rest

/-- Underscore validation of a whole string. -/
def underscoresOK (cs : List Char) : Bool := underscoresOKAux none cs

/-- Underscore removal, applied after validation. -/
def removeUnderscores (cs : List Char) : List Char := cs.filter (fun c => c != '_')

/-- Case-insensitive comparison with a lowercase pattern. -/
def lcEq (cs pat : List Char) : Bool := cs.map Char.toLower == pat

/-- CPython `float(s)` on ASCII strings (the unicode digit/whitespace
translation step is outside this model): strip surrounding whitespace,
validate and drop PEP 515 underscores, read an optional sign, then accept
`inf`/`infinity`/`nan` case-insensitively or a decimal literal (digits with
an optional decimal point and an optional decimal exponent).  `none` is
Python raising `ValueError`. -/
def pyFloatParse (s : String) : Option PyFloatVal :=
  let t := stripPyWS s.data
  if !underscoresOK t then none
  else
    let cs0 := removeUnderscores t
    let signSplit : Bool × List Char :=
      match cs0 with
      | '-' :: r => (true, r)
      | '+' :: r => (false, r)
      | r => (false, r)
    let neg := signSplit.1
    let body := signSplit.2
    if lcEq body ['i', 'n', 'f'] || lcEq body ['i', 'n', 'f', 'i', 'n', 'i', 't', 'y'] then
      some (PyFloatVal.inf neg)
    else if lcEq body ['n', 'a', 'n'] then
      some PyFloatVal.nan
    else
      let sgn : ℚ := if neg then -1 else 1
      let intSplit := body.span Char.isDigit
      let d1 := intSplit.1
      let rest1 := intSplit.2
      let mantissa : Option (ℚ × List Char) :=
        match rest1 with
        | '.' :: r2 =>
          let fracSplit := r2.span Char.isDigit
          let d2 := fracSplit.1
          if d1.isEmpty && d2.isEmpty then none
          else some ((digitsVal (d1 ++ d2) : ℚ) / (10 : ℚ) ^ d2.length, fracSplit.2)
        | _ => if d1.isEmpty then none else some ((digitsVal d1 : ℚ), rest1)
      match mantissa with
      | none => none
      | some (m, rest) =>
        match rest with
        | [] => some (PyFloatVal.finite (sgn * m))
        | 'e' :: r | 'E' :: r =>
          let expSplit : Int × List Char :=
            match r with
            | '-' :: u => (-1, u)
            | '+' :: u => (1, u)
            | u => (1, u)
          let edSplit := expSplit.2.span Char.isDigit
          if edSplit.1.isEmpty || !edSplit.2.isEmpty then none
          else some (PyFloatVal.finite
            (sgn * m * (10 : ℚ) ^ (expSplit.1 * (digitsVal edSplit.1 : Int))))
        | _ => none

/-- The finite result of `float(s)`, when there is one.  `from_yolo` below
matches on this: a `none` arising from a *rejected* token is Python raising
`ValueError`, while tokens accepted as `inf`/`nan` have no rational value
and leave the model (`from_yolo` is faithful only away from them, and the
failure theorems quantify over rejected tokens via `pyFloatAccepts`). -/
def pyFloat (s : String) : Option ℚ :=
  match pyFloatParse s with
  | some (PyFloatVal.finite q) => some q
  | _ => none

/-- Whether `float(s)` accepts `s`, i.e. does not raise `ValueError`. -/
def pyFloatAccepts (s : String) : Bool := (pyFloatParse s).isSome

/-- The three coordinate conventions of `src/core/bounding_box.py`. -/
inductive BBFORMAT
  | YOLO
  | ABSOLUTE
  | PIL
deriving DecidableEq

/-- The `BoundingBox` dataclass of `src/core/bounding_box.py`. -/
structure BoundingBox where
  x : ℚ
  y : ℚ
  w : ℚ
  h : ℚ
  label : Option String
  format : BBFORMAT
deriving DecidableEq

/-- Embeds `BoundingBox.yolo_to_absolute`.  The source computes each field
with Python `int(...)` applied to a float product, i.e. truncation toward
zero (`ratTrunc`), and tags the result `ABSOLUTE`. -/
def BoundingBox.yolo_to_absolute (x y w h : ℚ) (img_width img_height : Int)
    (label : Option String) : BoundingBox :=
  { x := (ratTrunc ((x - w / 2) * (img_width : ℚ)) : Int)
  , y := (ratTrunc ((y - h / 2) * (img_height : ℚ)) : Int)
  , w := (ratTrunc (w * (img_width : ℚ)) : Int)
  , h := (ratTrunc (h * (img_height : ℚ)) : Int)
  , label := label
  , format := BBFORMAT.ABSOLUTE }

/-- Embeds `BoundingBox.from_yolo`.  The source reads `annotation[0]` as the
label and unpacks `map(float, annotation[1:])` into exactly four fields; any
other token count raises (`IndexError`/`ValueError`), as does a token that
`float` rejects.  All failure paths are `none`.  Tokens accepted by `float`
as `inf`/`nan` produce non-rational fields in Python and are outside this
rational model (see `pyFloat`). -/
def BoundingBox.from_yolo (tokens : List String) : Option BoundingBox :=
  match tokens with
  | [label, xs, ys, ws, hs] =>
    match pyFloat xs, pyFloat ys, pyFloat ws, pyFloat hs with
    | some x, some y, some w, some h =>
      some { x := x, y := y, w := w, h := h, label := some label, format := BBFORMAT.YOLO }
    | _, _, _, _ => none
  | _ => none

/-- Embeds the loop of `fetch_yolo_boxes` (`src/dataset/fetch_data.py`): for
each line of the label file, append `BoundingBox.from_yolo(line.split())`;
an exception from `from_yolo` aborts the whole call (`none`). -/
def fetchYoloBoxes (lines : List String) : Option (List BoundingBox) :=
  match lines with
  | [] => some []
  | line :: rest =>
    match BoundingBox.from_yolo (pySplit line) with
    | none => none
    | some b =>
      match fetchYoloBoxes rest with
      | none => none
      | some bs => some (b :: bs)

/-- Embeds `replace_class_label` (`src/dataset/create_yolo_dataset.py`).  The
input is the list of lines read by `readlines()` (each usually ending in a
newline); the output is the list of strings written back, in order.  A line
whose `split()` is empty is skipped (nothing written); otherwise its first
token is replaced when no target is given or when it equals the target, and
the tokens are written rejoined by single spaces with a trailing newline. -/
def replaceClassLabel (lines : List String) (replacement : String)
    (target : Option String) : List String :=
  match lines with
  | [] => []
  | line :: rest =>
    match pySplit line with
    | [] => replaceClassLabel rest replacement target
    | p :: ps =>
      let parts :=
        match target with
        | none => replacement :: ps
        | some t => if p = t then replacement :: ps else p :: ps
      (String.intercalate " " parts ++ "\n") :: replaceClassLabel rest replacement target

/-- Models the relabeling pass of `create_dataset` (lines 170-181): every
copied label file is rewritten by `replace_class_label(file_path, "0")`,
i.e. with replacement `"0"` and no target class. -/
def createDatasetLabelTransform (lines : List String) : List String :=
  replaceClassLabel lines "0" none

/-- Specification-side description of the per-line token rewrite of
`replace_class_label`, following the claim's words; compared against the
source embedding `replaceClassLabel` in the theorems. -/
def specRewriteTokens (replacement : String) (target : Option String) :
    List String → List String
  | [] => []
  | p :: ps =>
    match target with
    | none => replacement :: ps
    | some t => if p = t then replacement :: ps else p :: ps

/-- Python `s.replace(pat, rep)`: replace all non-overlapping occurrences,
scanning left to right.  The fuel argument is an upper bound on the number
of recursion steps; `pyReplace` supplies enough for the whole input. -/
def pyReplaceAux (pat rep : List Char) : Nat → List Char → List Char
  | 0, s => s
  | fuel + 1, s =>
    if !pat.isEmpty && pat.isPrefixOf s then
      rep ++ pyReplaceAux pat rep fuel (s.drop pat.length)
    else
      match s with
      | [] => []
      | c :: cs => c :: pyReplaceAux pat rep fuel cs

/-- Python `s.replace(pat, rep)` on strings. -/
def pyReplace (s pat rep : String) : String :=
  String.mk (pyReplaceAux pat.data rep.data (s.data.length + 1) s.data)

/-- Dimensions of a decoded PIL image; pixel contents are outside the scope
of the embedded claims (cropping is an external library call). -/
structure PILImage where
  width : Nat
  height : Nat
deriving DecidableEq

/-- The `LabeledImage` class of `src/core/labeled_image.py`. -/
structure LabeledImage where
  filename : String
  image : PILImage
  boxes : List BoundingBox
deriving DecidableEq

/-- One file written by `extract_bboxes`: target directory, file name, and
the (left, top, right, bottom) crop rectangle passed to `image.crop`. -/
structure FileWrite where
  dir : String
  name : String
  rect : Int × Int × Int × Int
deriving DecidableEq

/-- Python `str(label)` for an optional label, as interpolated by the
f-string in `extract_bboxes` (`str(None)` is `"None"`). -/
def optLabelStr : Option String → String
  | some s => s
  | none => "None"

/-- Embeds `LabeledImage.extract_bboxes`.  The method only reads `self`:
the loop variable `box` is rebound to a fresh `BoundingBox` for YOLO boxes
and `self.boxes` is never assigned to, so the resulting object state is the
input `li` unchanged; the list of file writes is returned explicitly (one
per box, in order, named `{filename with ".png" removed}_{label}_{idx}.png`). -/
def LabeledImage.extract_bboxes (li : LabeledImage) (output_images_dir : String) :
    LabeledImage × List FileWrite :=
  let filename := pyReplace li.filename ".png" ""
  let writes := li.boxes.enum.map (fun p =>
    let idx := p.1
    let box := p.2
    let box :=
      if box.format = BBFORMAT.YOLO then
        BoundingBox.yolo_to_absolute box.x box.y box.w box.h
          (li.image.width : Int) (li.image.height : Int) box.label
      else box
    { dir := output_images_dir
    , name := filename ++ "_" ++ optLabelStr box.label ++ "_" ++ toString idx ++ ".png"
    , rect := (ratTrunc box.x, ratTrunc box.y,
               ratTrunc (box.x + box.w), ratTrunc (box.y + box.h)) })
  (li, writes)

/-! ### CPython `random` module (Mersenne Twister), with explicit state

`create_dataset` seeds the process-global generator with `random.seed(seed)`
and permutes the image list with `random.shuffle(images)`.  The generator is
embedded as an explicit `MTState` threaded through the calls; `random.seed`
builds a fresh state from the seed alone, discarding the previous global
state.  Word arithmetic is `Nat` reduced modulo `2^32`. -/

/-- Reduction modulo `2^32`, the word size of the Mersenne Twister. -/
def u32 (x : Nat) : Nat := x % 4294967296

/-- State of the Mersenne Twister: the 624-word vector and the next index. -/
structure MTState where
  mt : List Nat
  idx : Nat
deriving DecidableEq

/-- Read word `i` of the state vector. -/
def mtGet (l : List Nat) (i : Nat) : Nat := l.getD i 0

/-- Tail of `init_genrand`: fills words `i, i+1, ...` given word `i-1`. -/
def initGenrandAux (prev i : Nat) : Nat → List Nat
  | 0 => []
  | k + 1 =>
    let cur := u32 (1812433253 * (Nat.xor prev (prev >>> 30)) + i)
    cur :: initGenrandAux cur (i + 1) k

/-- `init_genrand(s)` of mt19937ar, as used by CPython. -/
def initGenrand (s : Nat) : List Nat :=
  u32 s :: initGenrandAux (u32 s) 1 623

/-- First mixing loop of `init_by_array`; returns the state vector and the
running index `i`, which the second loop continues from. -/
def ibaStep1 (key : List Nat) : Nat → Nat → Nat → List Nat → List Nat × Nat
  | 0, i, _, mt => (mt, i)
  | k + 1, i, j, mt =>
    let prev := mtGet mt (i - 1)
    let v := u32 (Nat.xor (mtGet mt i) ((Nat.xor prev (prev >>> 30)) * 1664525)
                    + mtGet key j + j)
    let mt1 := mt.set i v
    let i1 := i + 1
    let j1 := j + 1
    let wrap := if i1 ≥ 624 then (mt1.set 0 (mtGet mt1 623), 1) else (mt1, i1)
    let j2 := if j1 ≥ key.length then 0 else j1
    ibaStep1 key k wrap.2 j2 wrap.1

/-- Second mixing loop of `init_by_array`. -/
def ibaStep2 : Nat → Nat → List Nat → List Nat
  | 0, _, mt => mt
  | k + 1, i, mt =>
    let prev := mtGet mt (i - 1)
    let v := u32 (Nat.xor (mtGet mt i) ((Nat.xor prev (prev >>> 30)) * 1566083941)
                    + (4294967296 - i))
    let mt1 := mt.set i v
    let i1 := i + 1
    let wrap := if i1 ≥ 624 then (mt1.set 0 (mtGet mt1 623), 1) else (mt1, i1)
    ibaStep2 k wrap.2 wrap.1

/-- `init_by_array(key)` of mt19937ar, as used by CPython's `random.seed`. -/
def initByArray (key : List Nat) : List Nat :=
  let mt0 := initGenrand 19650218
  let step1 := ibaStep1 key (max 624 key.length) 1 0 mt0
  let mt2 := ibaStep2 623 step1.2 step1.1
  mt2.set 0 2147483648

/-- Little-endian base-`2^32` digits of a natural number (first argument is
fuel, always sufficient since `n < 2^n`). -/
def natToKeyAux : Nat → Nat → List Nat
  | 0, _ => []
  | fuel + 1, n =>
    if n = 0 then [] else n % 4294967296 :: natToKeyAux fuel (n / 4294967296)

/-- CPython `random.seed(n)` key for an integer seed: the absolute value
split into 32-bit words, little-endian, at least one word. -/
def natToKey (n : Nat) : List Nat := if n = 0 then [0] else natToKeyAux n n

/-- CPython `random.seed(n)` for an integer `n`: reinitialize the whole
generator state from `|n|`; the previous state is discarded.  The index is
624 so the first extraction twists. -/
def seedMT (n : Int) : MTState :=
  { mt := initByArray (natToKey n.natAbs), idx := 624 }

/-- One pass of the twist transformation over all 624 words. -/
def twistStep : Nat → Nat → List Nat → List Nat
  | 0, _, mt => mt
  | k + 1, i, mt =>
    let y := Nat.lor (Nat.land (mtGet mt i) 2147483648)
                     (Nat.land (mtGet mt ((i + 1) % 624)) 2147483647)
    let v := Nat.xor (Nat.xor (mtGet mt ((i + 397) % 624)) (y >>> 1))
                     (if y % 2 = 1 then 2567483615 else 0)
    twistStep k (i + 1) (mt.set i v)

/-- The twist (state regeneration) of the Mersenne Twister. -/
def twist (mt : List Nat) : List Nat := twistStep 624 0 mt

/-- The tempering applied to each extracted word. -/
def temper (y : Nat) : Nat :=
  let y1 := Nat.xor y (y >>> 11)
  let y2 := Nat.xor y1 (Nat.land (y1 <<< 7) 2636928640)
  let y3 := Nat.xor y2 (Nat.land (y2 <<< 15) 4022730752)
  Nat.xor y3 (y3 >>> 18)

/-- `genrand_uint32`: twist if the vector is exhausted, then temper the next
word. -/
def genrand (g : MTState) : Nat × MTState :=
  let fresh := if g.idx ≥ 624 then (twist g.mt, 0) else (g.mt, g.idx)
  (temper (mtGet fresh.1 fresh.2), { mt := fresh.1, idx := fresh.2 + 1 })

/-- `getrandbits(k)` for `0 < k ≤ 32`: the top `k` bits of one output word. -/
def getrandbits (k : Nat) (g : MTState) : Nat × MTState :=
  let r := genrand g
  (r.1 >>> (32 - k), r.2)

/-- Python `int.bit_length`. -/
def pyBitLength (n : Nat) : Nat := if n = 0 then 0 else Nat.log2 n + 1

/-- Rejection loop of `Random._randbelow_with_getrandbits`: draw `k`-bit
values until one is `< n`.  The loop has no intrinsic bound, so fuel limits
the number of draws; exhaustion is `none`. -/
def randbelowAux (n k : Nat) : Nat → MTState → Option (Nat × MTState)
  | 0, _ => none
  | fuel + 1, g =>
    let r := getrandbits k g
    if r.1 < n then some (r.1, r.2) else randbelowAux n k fuel r.2

/-- `Random._randbelow(n)`: uniform value in `[0, n)`. -/
def randbelow (fuel n : Nat) (g : MTState) : Option (Nat × MTState) :=
  randbelowAux n (pyBitLength n) fuel g

/-- Exchange positions `i` and `j` of a list (`x[i], x[j] = x[j], x[i]`). -/
def listSwap (xs : List String) (i j : Nat) : List String :=
  (xs.set i (xs.getD j "")).set j (xs.getD i "")

/-- The Fisher-Yates loop of `random.shuffle`: for `i` from `len-1` down to
`1`, draw `j = _randbelow(i+1)` and swap `x[i]` with `x[j]`.  The first
argument of the recursion is the current loop index. -/
def shuffleSteps (fuel : Nat) : Nat → List String → MTState → Option (List String × MTState)
  | 0, xs, g => some (xs, g)
  | i + 1, xs, g =>
    match randbelow fuel (i + 2) g with
    | none => none
    | some (j, g1) => shuffleSteps fuel i (listSwap xs (i + 1) j) g1

/-- `random.shuffle(xs)` from state `g`. -/
def pyShuffle (fuel : Nat) (xs : List String) (g : MTState) : Option (List String × MTState) :=
  shuffleSteps fuel (xs.length - 1) xs g

/-- Fuel bound for the rejection loops of one `create_dataset` run. -/
def shuffleFuel : Nat := 1000000

/-- Python `s.endswith(suffix)`. -/
def pyEndsWith (s suffix : String) : Bool := suffix.data.isSuffixOf s.data

/-- Python `l[:n]` for an integer `n` (negative indices count from the end). -/
def pySliceTo (l : List String) (n : Int) : List String :=
  if 0 ≤ n then l.take n.toNat else l.take ((l.length : Int) + n).toNat

/-- Python `l[n:]` for an integer `n` (negative indices count from the end). -/
def pySliceFrom (l : List String) (n : Int) : List String :=
  if 0 ≤ n then l.drop n.toNat else l.drop ((l.length : Int) + n).toNat

/-- Embeds the partitioning core of `create_dataset`
(`src/dataset/create_yolo_dataset.py`): seed the global generator (the
incoming global state `g` is discarded by `random.seed(seed)`), keep the
`.png` entries of the directory listing `files`, shuffle them, and split at
`num_train = int(len(images) * train_val_split)` into the train prefix and
the val suffix. -/
def createDatasetSplit (g : MTState) (seed : Int) (files : List String) (split : ℚ) :
    Option (List String × List String) :=
  let g0 := seedMT seed
  let images := files.filter (fun f => pyEndsWith f ".png")
  match pyShuffle shuffleFuel images g0 with
  | none => none
  | some (shuffled, _) =>
    let numTrain : Int := ratTrunc ((shuffled.length : ℚ) * split)
    some (pySliceTo shuffled numTrain, pySliceFrom shuffled numTrain)

/-! ### Theorems -/

/-- Helper: `int()` truncation agrees with `floor` on nonnegative values. -/
theorem ratTrunc_eq_floor {q : ℚ} (h : 0 ≤ q) : ratTrunc q = ⌊q⌋ := if_pos h

/-- C1 (counterexample): the claim says every field of `yolo_to_absolute` is
the floor of the corresponding product, for all inputs including those
outside `[0, 1]`.  At `x = -1/2, y = w = h = 0, img_width = 3,
img_height = 1` the product for `x` is `-3/2`; the code truncates it toward
zero to `-1` while its floor is `-2`, so the claimed field equation fails. -/
theorem c1_yolo_floor_counterexample :
    (BoundingBox.yolo_to_absolute (-(1 : ℚ)/2) 0 0 0 3 1 none).x = -1
    ∧ (⌊((-(1 : ℚ)/2 - 0/2) * ((3 : Int) : ℚ))⌋ : Int) = -2
    ∧ (BoundingBox.yolo_to_absolute (-(1 : ℚ)/2) 0 0 0 3 1 none).x
        ≠ ((⌊((-(1 : ℚ)/2 - 0/2) * ((3 : Int) : ℚ))⌋ : Int) : ℚ) := by
  have hA : ((-(1 : ℚ)/2 - 0/2) * ((3 : Int) : ℚ)) = -3/2 := by push_cast; ring
  have hceil : (⌈(-3/2 : ℚ)⌉ : Int) = -1 := by rw [Int.ceil_eq_iff] ; norm_num
  have hfloor : (⌊(-3/2 : ℚ)⌋ : Int) = -2 := by rw [Int.floor_eq_iff] ; norm_num
  have hx : (BoundingBox.yolo_to_absolute (-(1 : ℚ)/2) 0 0 0 3 1 none).x = -1 := by
    show ((ratTrunc ((-(1 : ℚ)/2 - 0/2) * ((3 : Int) : ℚ)) : Int) : ℚ) = -1
    rw [hA, ratTrunc, if_neg (by norm_num), hceil]
    norm_num
  refine ⟨hx, by rw [hA, hfloor], ?_⟩
  rw [hx, hA, hfloor]
  norm_num

/-- C1 (amended): every field of `yolo_to_absolute` is the truncation toward
zero (Python `int()`) of the corresponding product, the result is tagged
`ABSOLUTE` and keeps the label; whenever a product is nonnegative its field
equals the floor the claim asserts. -/
theorem c1_yolo_to_absolute_trunc (x y w h : ℚ) (iw ih : Int) (label : Option String) :
    ((BoundingBox.yolo_to_absolute x y w h iw ih label).format = BBFORMAT.ABSOLUTE)
    ∧ ((BoundingBox.yolo_to_absolute x y w h iw ih label).label = label)
    ∧ ((BoundingBox.yolo_to_absolute x y w h iw ih label).x
        = ((ratTrunc ((x - w / 2) * (iw : ℚ)) : Int) : ℚ))
    ∧ ((BoundingBox.yolo_to_absolute x y w h iw ih label).y
        = ((ratTrunc ((y - h / 2) * (ih : ℚ)) : Int) : ℚ))
    ∧ ((BoundingBox.yolo_to_absolute x y w h iw ih label).w
        = ((ratTrunc (w * (iw : ℚ)) : Int) : ℚ))
    ∧ ((BoundingBox.yolo_to_absolute x y w h iw ih label).h
        = ((ratTrunc (h * (ih : ℚ)) : Int) : ℚ))
    ∧ (0 ≤ (x - w / 2) * (iw : ℚ)
        → (BoundingBox.yolo_to_absolute x y w h iw ih label).x
            = ((⌊(x - w / 2) * (iw : ℚ)⌋ : Int) : ℚ))
    ∧ (0 ≤ (y - h / 2) * (ih : ℚ)
        → (BoundingBox.yolo_to_absolute x y w h iw ih label).y
            = ((⌊(y - h / 2) * (ih : ℚ)⌋ : Int) : ℚ))
    ∧ (0 ≤ w * (iw : ℚ)
        → (BoundingBox.yolo_to_absolute x y w h iw ih label).w
            = ((⌊w * (iw : ℚ)⌋ : Int) : ℚ))
    ∧ (0 ≤ h * (ih : ℚ)
        → (BoundingBox.yolo_to_absolute x y w h iw ih label).h
            = ((⌊h * (ih : ℚ)⌋ : Int) : ℚ)) := by
  refine ⟨rfl, rfl, rfl, rfl, rfl, rfl, fun hx => ?_, fun hy => ?_, fun hw => ?_, fun hh => ?_⟩
  · show ((ratTrunc ((x - w / 2) * (iw : ℚ)) : Int) : ℚ) = _
    rw [ratTrunc_eq_floor hx]
  · show ((ratTrunc ((y - h / 2) * (ih : ℚ)) : Int) : ℚ) = _
    rw [ratTrunc_eq_floor hy]
  · show ((ratTrunc (w * (iw : ℚ)) : Int) : ℚ) = _
    rw [ratTrunc_eq_floor hw]
  · show ((ratTrunc (h * (ih : ℚ)) : Int) : ℚ) = _
    rw [ratTrunc_eq_floor hh]

/-- C1 (witness): the amended theorem at the spec's own example, a 100x100
image and YOLO box `(0.5, 0.5, 0.2, 0.4)`; all four products are
nonnegative, so both the truncation and the floor forms apply. -/
theorem c1_yolo_to_absolute_trunc_witness :
    (BoundingBox.yolo_to_absolute (1/2) (1/2) (1/5) (2/5) 100 100 (some "6")).x
        = ((⌊((1 : ℚ)/2 - (1/5) / 2) * ((100 : Int) : ℚ)⌋ : Int) : ℚ)
    ∧ (BoundingBox.yolo_to_absolute (1/2) (1/2) (1/5) (2/5) 100 100 (some "6")).format
        = BBFORMAT.ABSOLUTE := by
  have h := c1_yolo_to_absolute_trunc (1/2) (1/2) (1/5) (2/5) 100 100 (some "6")
  exact ⟨h.2.2.2.2.2.2.1 (by push_cast; norm_num), h.1⟩

/-- C2 (counterexample): the claim says a file whose lines are one valid
annotation, a blank line, and nothing else yields exactly the box of the
non-blank line.  The valid line does parse, but `fetch_yolo_boxes` passes
the blank line's empty token list to `from_yolo`, whose `annotation[0]`
read fails (IndexError), so the whole call errors instead of skipping. -/
theorem c2_blank_line_counterexample :
    BoundingBox.from_yolo (pySplit "6 0.5 0.5 0.1 0.1")
      = some { x := 1/2, y := 1/2, w := 1/10, h := 1/10
             , label := some "6", format := BBFORMAT.YOLO }
    ∧ fetchYoloBoxes ["6 0.5 0.5 0.1 0.1", ""] = none := by
  have h1 : pySplit "6 0.5 0.5 0.1 0.1" = ["6", "0.5", "0.5", "0.1", "0.1"] := by decide
  have h2 : pySplit "" = [] := by decide
  constructor
  · rw [h1]
    simp [BoundingBox.from_yolo, pyFloat, pyFloatParse, stripPyWS, underscoresOK,
          underscoresOKAux, removeUnderscores, lcEq, pyIsSpace, digitsVal]
    norm_num
  · simp [fetchYoloBoxes, h1, h2, BoundingBox.from_yolo, pyFloat, pyFloatParse, stripPyWS,
          underscoresOK, underscoresOKAux, removeUnderscores, lcEq, pyIsSpace, digitsVal]

/-- C2 (amended): a line whose whitespace tokenization is empty is not
skipped: `from_yolo` fails on the empty token list, so any label file
containing such a line makes `fetch_yolo_boxes` fail as a whole, whatever
the surrounding lines hold. -/
theorem c2_blank_line_aborts (pre post : List String) (blank : String)
    (hb : pySplit blank = []) :
    fetchYoloBoxes (pre ++ blank :: post) = none := by
  induction pre with
  | nil => simp [fetchYoloBoxes, hb, BoundingBox.from_yolo]
  | cons line rest ih =>
    simp only [List.cons_append, fetchYoloBoxes]
    cases BoundingBox.from_yolo (pySplit line) <;> simp [ih]

/-- C2 (witness): the amended theorem at a concrete file of one valid line
followed by one blank line. -/
theorem c2_blank_line_aborts_witness :
    fetchYoloBoxes (["6 0.5 0.5 0.1 0.1"] ++ "" :: []) = none :=
  c2_blank_line_aborts ["6 0.5 0.5 0.1 0.1"] [] "" (by decide)

/-- C3: on a token list of exactly five elements whose last four parse as
floating point literals, `from_yolo` returns the YOLO-tagged box with the
first token as label and the parsed values as coordinates. -/
theorem c3_from_yolo_parses (label xs ys ws hs : String) (x y w h : ℚ)
    (hx : pyFloat xs = some x) (hy : pyFloat ys = some y)
    (hw : pyFloat ws = some w) (hh : pyFloat hs = some h) :
    BoundingBox.from_yolo [label, xs, ys, ws, hs]
      = some { x := x, y := y, w := w, h := h
             , label := some label, format := BBFORMAT.YOLO } := by
  simp [BoundingBox.from_yolo, hx, hy, hw, hh]

/-- C3 (witness): the spec's example annotation
`["6", "0.4023", "0.4336", "0.1077", "0.4699"]`. -/
theorem c3_from_yolo_parses_witness :
    BoundingBox.from_yolo ["6", "0.4023", "0.4336", "0.1077", "0.4699"]
      = some { x := 4023/10000, y := 4336/10000, w := 1077/10000, h := 4699/10000
             , label := some "6", format := BBFORMAT.YOLO } :=
  c3_from_yolo_parses "6" "0.4023" "0.4336" "0.1077" "0.4699" _ _ _ _
    (by simp [pyFloat, pyFloatParse, stripPyWS, underscoresOK, underscoresOKAux,
              removeUnderscores, lcEq, pyIsSpace, digitsVal]; norm_num)
    (by simp [pyFloat, pyFloatParse, stripPyWS, underscoresOK, underscoresOKAux,
              removeUnderscores, lcEq, pyIsSpace, digitsVal]; norm_num)
    (by simp [pyFloat, pyFloatParse, stripPyWS, underscoresOK, underscoresOKAux,
              removeUnderscores, lcEq, pyIsSpace, digitsVal]; norm_num)
    (by simp [pyFloat, pyFloatParse, stripPyWS, underscoresOK, underscoresOKAux,
              removeUnderscores, lcEq, pyIsSpace, digitsVal]; norm_num)

/-- Helper: a token that `float()` rejects has no finite value either. -/
theorem pyFloat_eq_none_of_rejected {s : String} (h : pyFloatAccepts s = false) :
    pyFloat s = none := by
  cases e : pyFloatParse s with
  | none => simp [pyFloat, e]
  | some v => simp [pyFloatAccepts, e] at h

/-- C4: `from_yolo` fails on any token list of fewer than five elements, and
on any list whose token at a position in `1..4` is not accepted by Python
`float()` (so `float` raises `ValueError` on it). -/
theorem c4_from_yolo_fails (tokens : List String) :
    (tokens.length < 5 → BoundingBox.from_yolo tokens = none)
    ∧ (∀ i s, 1 ≤ i → i ≤ 4 → tokens.get? i = some s → pyFloatAccepts s = false
        → BoundingBox.from_yolo tokens = none) := by
  constructor
  · intro hlen
    rcases tokens with _ | ⟨a, _ | ⟨b, _ | ⟨c, _ | ⟨d, _ | ⟨e, _ | ⟨f, rest⟩⟩⟩⟩⟩⟩
    · rfl
    · rfl
    · rfl
    · rfl
    · rfl
    · simp at hlen
    · rfl
  · intro i s h1 h4 hget hrej
    have hfail := pyFloat_eq_none_of_rejected hrej
    clear hrej
    rcases tokens with _ | ⟨a, _ | ⟨b, _ | ⟨c, _ | ⟨d, _ | ⟨e, _ | ⟨f, rest⟩⟩⟩⟩⟩⟩
    · rfl
    · rfl
    · rfl
    · rfl
    · rfl
    · interval_cases i <;>
        (simp only [List.get?, Option.some.injEq] at hget; subst hget;
         rcases h1e : pyFloat b with _ | vb <;> rcases h2e : pyFloat c with _ | vc <;>
         rcases h3e : pyFloat d with _ | vd <;> rcases h4e : pyFloat e with _ | ve <;>
         simp_all [BoundingBox.from_yolo])
    · rfl

/-- C4 (witness): a two-token annotation fails, and so does a five-token
annotation whose second token `"abc"` is rejected by `float()`. -/
theorem c4_from_yolo_fails_witness :
    BoundingBox.from_yolo ["6", "0.1"] = none
    ∧ BoundingBox.from_yolo ["6", "abc", "0.2", "0.3", "0.4"] = none :=
  ⟨(c4_from_yolo_fails ["6", "0.1"]).1 (by decide),
   (c4_from_yolo_fails ["6", "abc", "0.2", "0.3", "0.4"]).2 1 "abc" (by decide) (by decide)
     (by decide) (by decide)⟩

/-- Helper: the Fisher-Yates loop permutes in place, so a successful run
preserves the list length. -/
theorem shuffleSteps_length (fuel : Nat) :
    ∀ (i : Nat) (xs ys : List String) (g gfin : MTState),
      shuffleSteps fuel i xs g = some (ys, gfin) → ys.length = xs.length := by
  intro i
  induction i with
  | zero =>
    intro xs ys g gfin h
    simp [shuffleSteps] at h
    rw [h.1]
  | succ i ih =>
    intro xs ys g gfin h
    unfold shuffleSteps at h
    cases e : randbelow fuel (i + 2) g with
    | none => rw [e] at h; simp at h
    | some r =>
      rw [e] at h
      have := ih (listSwap xs (i + 1) r.1) ys r.2 gfin h
      simpa [listSwap] using this

/-- C5: when `create_dataset`'s partitioning core succeeds and the split
fraction is nonnegative, the shuffled `.png` list is cut at index
`floor(len * train_val_split)` (there `int()` truncation and floor agree):
the train set is exactly that prefix, the val set the rest, together they
are the shuffled list, and the output sizes add up to the number of input
`.png` files. -/
theorem c5_create_dataset_split (g : MTState) (seed : Int) (files : List String)
    (split : ℚ) (t v : List String) (h0 : 0 ≤ split)
    (h : createDatasetSplit g seed files split = some (t, v)) :
    ∃ shuffled : List String,
      shuffled.length = (files.filter (fun f => pyEndsWith f ".png")).length
      ∧ t = shuffled.take (⌊(shuffled.length : ℚ) * split⌋).toNat
      ∧ v = shuffled.drop (⌊(shuffled.length : ℚ) * split⌋).toNat
      ∧ t ++ v = shuffled
      ∧ t.length + v.length = (files.filter (fun f => pyEndsWith f ".png")).length := by
  simp only [createDatasetSplit] at h
  cases e : pyShuffle shuffleFuel (files.filter (fun f => pyEndsWith f ".png")) (seedMT seed) with
  | none => rw [e] at h; simp at h
  | some r =>
    obtain ⟨shuffled, gfin⟩ := r
    rw [e] at h
    simp only [Option.some.injEq, Prod.mk.injEq] at h
    obtain ⟨ht, hv⟩ := h
    have hlen : shuffled.length = (files.filter (fun f => pyEndsWith f ".png")).length :=
      shuffleSteps_length shuffleFuel _ _ _ _ _ e
    have hq : 0 ≤ (shuffled.length : ℚ) * split :=
      mul_nonneg (by positivity) h0
    have htr : ratTrunc ((shuffled.length : ℚ) * split) = ⌊(shuffled.length : ℚ) * split⌋ :=
      ratTrunc_eq_floor hq
    have hnn : 0 ≤ ⌊(shuffled.length : ℚ) * split⌋ := Int.floor_nonneg.mpr hq
    have ht' : t = shuffled.take (⌊(shuffled.length : ℚ) * split⌋).toNat := by
      rw [← ht]; simp [pySliceTo, htr, hnn]
    have hv' : v = shuffled.drop (⌊(shuffled.length : ℚ) * split⌋).toNat := by
      rw [← hv]; simp [pySliceFrom, htr, hnn]
    refine ⟨shuffled, hlen, ht', hv', ?_, ?_⟩
    · rw [ht', hv']; exact List.take_append_drop _ _
    · have : (t ++ v).length = shuffled.length := by
        rw [ht', hv', List.take_append_drop]
      simpa using this.trans hlen

/-- C5 (witness): a run on the single file `a.png` with split `4/5` succeeds
with an empty train set and val set `["a.png"]`. -/
theorem c5_create_dataset_split_witness :
    ∃ shuffled : List String,
      shuffled.length = ((["a.png"] : List String).filter (fun f => pyEndsWith f ".png")).length
      ∧ ([] : List String) = shuffled.take (⌊(shuffled.length : ℚ) * (4/5)⌋).toNat
      ∧ ["a.png"] = shuffled.drop (⌊(shuffled.length : ℚ) * (4/5)⌋).toNat
      ∧ ([] : List String) ++ ["a.png"] = shuffled
      ∧ ([] : List String).length + (["a.png"] : List String).length
          = ((["a.png"] : List String).filter (fun f => pyEndsWith f ".png")).length :=
  c5_create_dataset_split ⟨[], 624⟩ 0 ["a.png"] (4/5) [] ["a.png"] (by norm_num) (by
    have hfil : (["a.png"].filter (fun f => pyEndsWith f ".png")) = ["a.png"] := by decide
    have hsh : pyShuffle shuffleFuel ["a.png"] (seedMT 0) = some (["a.png"], seedMT 0) := by
      simp [pyShuffle, shuffleSteps]
    have htr : ratTrunc ((4 : ℚ)/5) = 0 := by
      rw [ratTrunc_eq_floor (by norm_num), Int.floor_eq_iff] ; norm_num
    simp only [createDatasetSplit, hfil, hsh]
    norm_num [htr, pySliceTo, pySliceFrom])

/-- C6: the train/val partition is a function of the seed and the input
listing alone.  `create_dataset` begins with `random.seed(seed)`, which
rebuilds the whole generator state from the seed, so whatever the global
generator state was before the call (`g1` versus `g2`), the resulting
partition is identical; with seed and inputs fixed, two runs agree
exactly. -/
theorem c6_split_deterministic (g1 g2 : MTState) (seed : Int) (files : List String)
    (split : ℚ) :
    createDatasetSplit g1 seed files split = createDatasetSplit g2 seed files split := rfl


/-- C7: `extract_bboxes` emits one file per box, in list order: the write
list has exactly one entry per box, the entry for the box at zero-based
position `idx` is named `{filename with ".png" removed}_{label}_{idx}.png`
(the YOLO conversion keeps the label, so the name always shows the stored
box's label), and every write targets the given output directory. -/
theorem c7_extract_bboxes_names (li : LabeledImage) (out : String) :
    ((li.extract_bboxes out).2.length = li.boxes.length)
    ∧ ((li.extract_bboxes out).2.map FileWrite.name
        = li.boxes.enum.map (fun p =>
            pyReplace li.filename ".png" "" ++ "_" ++ optLabelStr p.2.label
              ++ "_" ++ toString p.1 ++ ".png"))
    ∧ (∀ fw ∈ (li.extract_bboxes out).2, fw.dir = out) := by
  refine ⟨?_, ?_, ?_⟩
  · simp [LabeledImage.extract_bboxes]
  · simp only [LabeledImage.extract_bboxes, List.map_map]
    refine List.map_congr_left (fun p _ => ?_)
    by_cases hf : p.2.format = BBFORMAT.YOLO <;>
      simp [hf, BoundingBox.yolo_to_absolute]
  · intro fw hfw
    simp only [LabeledImage.extract_bboxes, List.mem_map] at hfw
    obtain ⟨p, _, hp⟩ := hfw
    rw [← hp]

/-- C9: `extract_bboxes` does not mutate the `LabeledImage`: the object state
returned by the embedding is the input itself, so filename, image and the
stored boxes (with all their fields) are unchanged; YOLO boxes are converted
into fresh `BoundingBox` values used only for the writes. -/
theorem c9_extract_bboxes_pure (li : LabeledImage) (out : String) :
    ((li.extract_bboxes out).1 = li)
    ∧ ((li.extract_bboxes out).1.filename = li.filename)
    ∧ ((li.extract_bboxes out).1.image = li.image)
    ∧ ((li.extract_bboxes out).1.boxes = li.boxes) :=
  ⟨rfl, rfl, rfl, rfl⟩

/-- C7 (witness): a one-box image produces exactly the file name
`img_6_0.png`. -/
theorem c7_extract_bboxes_names_witness :
    (((⟨"img.png", ⟨100, 100⟩, [⟨0, 0, 0, 0, some "6", BBFORMAT.ABSOLUTE⟩]⟩ : LabeledImage).extract_bboxes
        "out").2.map FileWrite.name) = ["img_6_0.png"] := by
  have h := c7_extract_bboxes_names
    ⟨"img.png", ⟨100, 100⟩, [⟨0, 0, 0, 0, some "6", BBFORMAT.ABSOLUTE⟩]⟩ "out"
  rw [h.2.1]
  decide

/-- Helper: `replace_class_label` writes, in order, one rewritten line per
input line with a non-empty tokenization, dropping the rest. -/
theorem replaceClassLabel_eq_spec (lines : List String) (repl : String)
    (tgt : Option String) :
    replaceClassLabel lines repl tgt
      = ((lines.map pySplit).filter (fun p => !p.isEmpty)).map
          (fun parts => String.intercalate " " (specRewriteTokens repl tgt parts) ++ "\n") := by
  induction lines with
  | nil => rfl
  | cons line rest ih =>
    cases e : pySplit line with
    | nil => simp [replaceClassLabel, e, ih]
    | cons p ps =>
      cases tgt with
      | none => simp [replaceClassLabel, e, ih, specRewriteTokens]
      | some t => by_cases hpt : p = t <;> simp [replaceClassLabel, e, ih, specRewriteTokens, hpt]

/-- Helper: the rewrite of a non-empty token list is non-empty. -/
theorem specRewriteTokens_ne_nil (repl : String) (tgt : Option String)
    (p : String) (ps : List String) :
    specRewriteTokens repl tgt (p :: ps) ≠ [] := by
  cases tgt with
  | none => simp [specRewriteTokens]
  | some t => by_cases hpt : p = t <;> simp [specRewriteTokens, hpt]

/-- C8: `create_dataset` rewrites every copied label file with replacement
class `"0"` and no target class; with no target, every written line's first
token becomes the replacement; with a target class, exactly the lines whose
first token equals the target are replaced and all other lines keep their
first token. -/
theorem c8_replace_class_label (lines : List String) (repl t : String) :
    (createDatasetLabelTransform lines = replaceClassLabel lines "0" none)
    ∧ (replaceClassLabel lines repl none
        = ((lines.map pySplit).filter (fun p => !p.isEmpty)).map
            (fun parts => String.intercalate " " (specRewriteTokens repl none parts) ++ "\n"))
    ∧ (∀ p rest, specRewriteTokens repl none (p :: rest) = repl :: rest)
    ∧ (∀ p rest, p ≠ t → specRewriteTokens repl (some t) (p :: rest) = p :: rest)
    ∧ (∀ rest, specRewriteTokens repl (some t) (t :: rest) = repl :: rest)
    ∧ (replaceClassLabel lines repl (some t)
        = ((lines.map pySplit).filter (fun p => !p.isEmpty)).map
            (fun parts => String.intercalate " " (specRewriteTokens repl (some t) parts) ++ "\n")) := by
  refine ⟨rfl, replaceClassLabel_eq_spec lines repl none, fun p rest => rfl,
    fun p rest hne => ?_, fun rest => ?_, replaceClassLabel_eq_spec lines repl (some t)⟩
  · simp [specRewriteTokens, hne]
  · simp [specRewriteTokens]

/-- C8 (witness): with no target every line gets class `"0"`; with target
`"7"` the line with class `"3"` is kept and a line with class `"7"` is
replaced. -/
theorem c8_replace_class_label_witness :
    (createDatasetLabelTransform ["3 0.1 0.2 0.3 0.4"]
        = replaceClassLabel ["3 0.1 0.2 0.3 0.4"] "0" none)
    ∧ (specRewriteTokens "0" none ("3" :: ["0.1"]) = "0" :: ["0.1"])
    ∧ (specRewriteTokens "0" (some "7") ("3" :: ["0.1"]) = "3" :: ["0.1"])
    ∧ (specRewriteTokens "0" (some "7") ("7" :: ["0.1"]) = "0" :: ["0.1"]) := by
  have h := c8_replace_class_label ["3 0.1 0.2 0.3 0.4"] "0" "7"
  exact ⟨h.1, h.2.2.1 "3" ["0.1"], h.2.2.2.1 "3" ["0.1"] (by decide), h.2.2.2.2.1 ["0.1"]⟩

/-- C10: `replace_class_label` writes one line per non-blank input line (so
its output length is the number of lines with a non-empty tokenization);
every written line is some non-empty token list rejoined with single spaces
and terminated by a newline; a single non-blank line is rewritten to exactly
its (whitespace-collapsed) tokens rejoined that way; and a leading blank
line is omitted entirely from the output. -/
theorem c10_replace_class_label_normalizes (lines rest2 : List String)
    (repl line blank : String) (tgt : Option String)
    (hl : pySplit line ≠ []) (hb : pySplit blank = []) :
    ((replaceClassLabel lines repl tgt).length
        = ((lines.map pySplit).filter (fun p => !p.isEmpty)).length)
    ∧ (∀ out ∈ replaceClassLabel lines repl tgt,
        ∃ parts : List String, parts ≠ [] ∧ out = String.intercalate " " parts ++ "\n")
    ∧ (replaceClassLabel [line] repl tgt
        = [String.intercalate " " (specRewriteTokens repl tgt (pySplit line)) ++ "\n"])
    ∧ (replaceClassLabel (blank :: rest2) repl tgt = replaceClassLabel rest2 repl tgt) := by
  refine ⟨?_, ?_, ?_, ?_⟩
  · rw [replaceClassLabel_eq_spec, List.length_map]
  · intro out hout
    rw [replaceClassLabel_eq_spec] at hout
    simp only [List.mem_map, List.mem_filter] at hout
    obtain ⟨parts, ⟨hmem, hne⟩, hout⟩ := hout
    cases parts with
    | nil => simp at hne
    | cons p ps =>
      exact ⟨specRewriteTokens repl tgt (p :: ps), specRewriteTokens_ne_nil repl tgt p ps,
        hout.symm⟩
  · cases e : pySplit line with
    | nil => exact absurd e hl
    | cons p ps =>
      cases tgt with
      | none => simp [replaceClassLabel, e, specRewriteTokens]
      | some t => by_cases hpt : p = t <;> simp [replaceClassLabel, e, specRewriteTokens, hpt]
  · simp [replaceClassLabel, hb]

/-- C10 (witness): the file `["1  0.5\n", ""]` (a line with doubled internal
whitespace, then a blank line): the rewritten single line collapses the
whitespace, and the blank line is dropped. -/
theorem c10_replace_class_label_normalizes_witness :
    ((replaceClassLabel ["1  0.5\n", ""] "9" none).length
        = (((["1  0.5\n", ""] : List String).map pySplit).filter (fun p => !p.isEmpty)).length)
    ∧ (∀ out ∈ replaceClassLabel ["1  0.5\n", ""] "9" none,
        ∃ parts : List String, parts ≠ [] ∧ out = String.intercalate " " parts ++ "\n")
    ∧ (replaceClassLabel ["1  0.5\n"] "9" none
        = [String.intercalate " " (specRewriteTokens "9" none (pySplit "1  0.5\n")) ++ "\n"])
    ∧ (replaceClassLabel ("" :: ["2 3"]) "9" none = replaceClassLabel ["2 3"] "9" none) :=
  c10_replace_class_label_normalizes ["1  0.5\n", ""] ["2 3"] "9" "1  0.5\n" "" none
    (by decide) (by decide)
